import Mathlib

/-
Verification of the react-component-test-suite library.

The library registers test suites with an external describe/test framework:
`getComponentName` resolves a component element's display name,
`resolveTestSuiteArgs` normalizes variadic suite arguments,
`componentTestSuite` registers one describe block with one test per case,
and `mapTestList` merges transformation results onto test-list entries.

The shallow embedding below mirrors the TypeScript source:
JavaScript string falsiness is modelled by the empty string (absent fields
default to ""), optional fields by Option, thrown errors by an explicit
error component in the result, and the describe/test registration side
effects by an explicit record of the calls made.
-/

/-- Models a `React.FunctionComponentElement` value as consumed by the library:
`typeName` is `element.type.name` (the structural function name),
`typeDisplayName` is `element.type.displayName`, and `displayName` is
`element.displayName`. Absent string fields are modelled as `""` (both
`undefined` and `""` are falsy for JavaScript's `||`). `props` carries the
element's remaining identity so that two physically distinct elements can
share a name. -/
structure AnyFunctionComponent where
  typeName : String := ""
  typeDisplayName : String := ""
  displayName : String := ""
  props : String := ""
deriving DecidableEq, Repr

/-- JavaScript `a || b` on strings where absent values are modelled as `""`:
returns `a` when `a` is truthy (non-empty), else `b`. -/
def jsOr (a b : String) : String := if a = "" then b else a

/-- The exact message of the error thrown by `getComponentName`. -/
def namingErrorMsg : String :=
  "Component has no name. May be a React.MemoExoticComponent-- if so, set displayName on the component."

/-- Embedding of `getComponentName` from `src/utils.ts`:
`Component.type.name || Component.type.displayName || Component.displayName`,
throwing when the result is falsy. A thrown error is modelled as
`Except.error` carrying the message. -/
def getComponentName (c : AnyFunctionComponent) : Except String String :=
  let name := jsOr c.typeName (jsOr c.typeDisplayName c.displayName)
  if name = "" then Except.error namingErrorMsg else Except.ok name

/-- A JavaScript object modelled as an association list of key/value pairs
(first occurrence of a key wins on lookup). -/
abbrev Obj (α : Type) := List (String × α)

/-- Property lookup on an object: value of the first pair with the given key. -/
def Obj.get {α : Type} : Obj α → String → Option α
  | [], _ => none
  | (k, v) :: rest, key => if k = key then some v else Obj.get rest key

/-- JavaScript object spread `\x7b ...t, ...u \x7d`: `t`'s keys keep their
positions but take `u`'s value when `u` also has the key; `u`'s keys absent
from `t` are appended. -/
def spreadObj {α : Type} (t u : Obj α) : Obj α :=
  t.map (fun p => (p.1, ((Obj.get u p.1).getD p.2))) ++
    u.filter (fun p => (Obj.get t p.1).isNone)

/-- Embedding of `mapTestList` from `src/componentSuite.ts`:
`args?.map((t) => (\x7b ...t, ...callback(t) \x7d))`. Entries are modelled as
generic objects since ride-along fields are arbitrary. -/
def mapTestList {α : Type} (args : Option (List (Obj α))) (callback : Obj α → Obj α) :
    Option (List (Obj α)) :=
  args.map (fun l => l.map (fun t => spreadObj t (callback t)))

/-- The first element of the argument array of `resolveTestSuiteArgs`: either
absent (`undefined`), an overall-options object, or a test-case list. Only
`undefined` is falsy; objects and arrays (even empty ones) are truthy. -/
inductive FirstArg (α β : Type) where
  | undef
  | opts (o : Obj α)
  | tests (l : List β)
deriving Repr

/-- The second element of the argument array of `resolveTestSuiteArgs`: per the
declared argument types it is a test-case list or `undefined`. -/
inductive SecondArg (β : Type) where
  | undef
  | tests (l : List β)
deriving Repr

/-- The normalized result shape of `resolveTestSuiteArgs`. The empty object
literal is the empty association list. -/
structure ResolvedSuiteArgs (α β : Type) where
  overallOptions : Obj α
  tests : List β
deriving Repr

/-- Embedding of `resolveTestSuiteArgs` from `src/componentSuite.ts`. The
source destructures `const [first, second] = args` (missing positions give
`undefined`), returns `\x7b \x7b\x7d, [] \x7d` when `first` is falsy, treats an
array `first` as the test list, and otherwise returns `first` as options with
`second ?? []` as tests. -/
def resolveTestSuiteArgs {α β : Type} (first : FirstArg α β) (second : SecondArg β) :
    ResolvedSuiteArgs α β :=
  match first with
  | FirstArg.undef => { overallOptions := [], tests := [] }
  | FirstArg.tests l => { overallOptions := [], tests := l }
  | FirstArg.opts o =>
      { overallOptions := o
        tests := match second with
                 | SecondArg.undef => []
                 | SecondArg.tests l => l }

/-- Decidable equality for `Except`, used to evaluate concrete name
resolutions in witnesses. -/
instance {ε α : Type} [DecidableEq ε] [DecidableEq α] : DecidableEq (Except ε α)
  | Except.ok a, Except.ok b =>
      if h : a = b then isTrue (by rw [h]) else isFalse (by intro hc; cases hc; exact h rfl)
  | Except.error a, Except.error b =>
      if h : a = b then isTrue (by rw [h]) else isFalse (by intro hc; cases hc; exact h rfl)
  | Except.ok _, Except.error _ => isFalse (by intro hc; cases hc)
  | Except.error _, Except.ok _ => isFalse (by intro hc; cases hc)

/-- The type of a JSX element's wrapper: `React.Fragment` (the source's default
for `Wrapper`) or a caller-supplied wrapper component identified by a number. -/
inductive WrapperType where
  | fragment
  | custom (id : Nat)
deriving DecidableEq, Repr

/-- A React element tree as built by the suite builder: a component element, or
a wrapper node with a list of children. -/
inductive Element where
  | ofComponent (c : AnyFunctionComponent)
  | node (w : WrapperType) (children : List Element)

/-- React renders a fragment with a single child exactly as that child; this
strips one such no-op layer and leaves every other element unchanged. -/
def Element.fragmentUnwrap : Element → Element
  | Element.node WrapperType.fragment [e] => e
  | e => e

/-- Which describe variant registers the grouping block: `describe`,
`describe.skip` or `describe.only` (the source's `suiteFn` option). -/
inductive SuiteFnKind where
  | normal
  | skip
  | only
deriving DecidableEq, Repr

/-- Errors thrown synchronously during suite registration: the naming error
from `getComponentName`, or the component-mismatch error from the test loop,
each carrying its message. -/
inductive SuiteError where
  | naming (msg : String)
  | mismatch (msg : String)
deriving DecidableEq, Repr

/-- True exactly on the mismatch variant of `SuiteError`. -/
def SuiteError.isMismatch : SuiteError → Bool
  | SuiteError.mismatch _ => true
  | _ => false

/-- The exact message of the mismatch error thrown by `componentTestSuite`. -/
def mismatchMsg (componentName : String) : String :=
  "all tests must be of same component type (" ++ componentName ++ ")"

/-- A per-test configuration entry as consumed by `componentTestSuite`.
`testTitleSuffix` is `""` when absent (both are falsy in the source's title
computation); `Component` is `none` when the `Component` key is absent from
the entry (the source tests key presence with `in`); the hooks model whether
a hook is supplied and whether it resolves (`some true`) or rejects
(`some false`) when awaited. -/
structure TestCase where
  testTitleSuffix : String := ""
  Component : Option AnyFunctionComponent := none
  beforeRender : Option Bool := none
  afterRender : Option Bool := none
deriving Repr

/-- Suite-level options of `componentTestSuite`. `Wrapper` is `none` when
omitted (the source then defaults to `React.Fragment`); `insideSuite` records
whether the optional hook was supplied; `renderThrowsOn` models the
caller-supplied `renderFunction` by whether it throws on a given element. -/
structure SuiteOptions where
  testTitle : String
  suiteFn : SuiteFnKind := SuiteFnKind.normal
  insideSuite : Bool := false
  Wrapper : Option Nat := none
  renderThrowsOn : Element → Bool := fun _ => false

/-- The wrapper element type the suite builder uses:
`Wrapper = React.Fragment` when the option is omitted. -/
def wrapperTypeOf (opts : SuiteOptions) : WrapperType :=
  match opts.Wrapper with
  | some w => WrapperType.custom w
  | none => WrapperType.fragment

/-- The observable behavior of one registered test callback's collaborators:
whether each hook is present and resolves or rejects, and whether the render
function throws on this case's element. -/
structure CaseBehavior where
  beforeRender : Option Bool := none
  renderThrows : Bool := false
  afterRender : Option Bool := none
deriving DecidableEq, Repr

/-- The observable calls a test callback makes to its collaborators. -/
inductive TestEvent where
  | beforeCall
  | renderCall
  | afterCall
deriving DecidableEq, Repr

/-- How a test callback fails: a rejected `beforeRender`, the
`expect(...).not.toThrow()` assertion failing because the render function
threw, or a rejected `afterRender`. `none` in the result means the test
passed. -/
inductive TestFailure where
  | beforeRejection
  | renderAssertionFailure
  | afterRejection
deriving DecidableEq, Repr

/-- Embedding of the async test callback registered by `componentTestSuite`:
`await beforeRender?.()`, then
`await act(() => expect(() => renderFunction(...)).not.toThrow())`, then
`await afterRender?.()`. A rejected await ends the async function there.
Returns the ordered list of collaborator calls and the failure, if any.
Note the render function is invoked (inside `expect`) even when it throws;
its exception is caught and re-raised as the assertion failure. -/
def runTestBody (b : CaseBehavior) : List TestEvent × Option TestFailure :=
  match b.beforeRender with
  | some false => ([TestEvent.beforeCall], some TestFailure.beforeRejection)
  | bb =>
      let t0 : List TestEvent :=
        match bb with
        | none => []
        | some _ => [TestEvent.beforeCall]
      if b.renderThrows then
        (t0 ++ [TestEvent.renderCall], some TestFailure.renderAssertionFailure)
      else
        match b.afterRender with
        | some false => (t0 ++ [TestEvent.renderCall, TestEvent.afterCall],
                          some TestFailure.afterRejection)
        | some true => (t0 ++ [TestEvent.renderCall, TestEvent.afterCall], none)
        | none => (t0 ++ [TestEvent.renderCall], none)

/-- One `test(title, callback)` registration made by `componentTestSuite`:
the computed title, the element handed to the render function inside the
callback, and the callback's collaborator behavior. -/
structure TestReg where
  title : String
  element : Element
  behavior : CaseBehavior

/-- The semantics of a registered test's callback. -/
def TestReg.run (r : TestReg) : List TestEvent × Option TestFailure :=
  runTestBody r.behavior

/-- The title computed for a test:
`testTitle + (testTitleSuffix ? \x60 - ${testTitleSuffix}\x60 : '')`. -/
def computeTitle (testTitle suffixStr : String) : String :=
  testTitle ++ (if suffixStr = "" then "" else " - " ++ suffixStr)

/-- The test registration `componentTestSuite` makes for one test case whose
resolved component is `thisComp`: the element is
`<Wrapper>\x7bThisTestComponent\x7d</Wrapper>` (a single wrapper node with the
component as sole child). -/
def mkTestReg (opts : SuiteOptions) (thisComp : AnyFunctionComponent) (tc : TestCase) : TestReg :=
  let element := Element.node (wrapperTypeOf opts) [Element.ofComponent thisComp]
  { title := computeTitle opts.testTitle tc.testTitleSuffix
    element := element
    behavior := { beforeRender := tc.beforeRender
                  renderThrows := opts.renderThrowsOn element
                  afterRender := tc.afterRender } }

/-- The `for ... of tests` loop in the describe body of `componentTestSuite`:
for each case, resolve `ThisTestComponent` (the case's own `Component` when
the key is present, else the primary component), resolve its name (a naming
failure propagates), throw the mismatch error when the name differs from the
suite's `componentName`, else register the test. Returns the registrations
made before any thrown error, and the error, if one was thrown. -/
def registerTests (primary : AnyFunctionComponent) (componentName : String)
    (opts : SuiteOptions) : List TestCase → List TestReg × Option SuiteError
  | [] => ([], none)
  | tc :: rest =>
      let thisComp := tc.Component.getD primary
      match getComponentName thisComp with
      | Except.error e => ([], some (SuiteError.naming e))
      | Except.ok n =>
          if n ≠ componentName then
            ([], some (SuiteError.mismatch (mismatchMsg componentName)))
          else
            let reg := mkTestReg opts thisComp tc
            let res := registerTests primary componentName opts rest
            (reg :: res.1, res.2)

/-- The observable effect of one `componentTestSuite` call: which describe
calls were made (variant and title), how many times `insideSuite` ran, the
test registrations made, and the error thrown during registration, if any. -/
structure SuiteResult where
  describeCalls : List (SuiteFnKind × String) := []
  insideSuiteCalls : Nat := 0
  testCalls : List TestReg := []
  error : Option SuiteError := none

/-- Embedding of `componentTestSuite` from `src/componentSuite.ts`: resolve
the suite title from the primary component (a naming failure aborts before
any describe call), default the test list to `[\x7b\x7d]` when empty, then run the
describe body (the `insideSuite` hook, then the registration loop). The spy
framework in the repository's tests runs describe and test bodies
synchronously, so a mid-loop throw leaves the describe call and the earlier
test registrations in place. -/
def componentTestSuite (c : AnyFunctionComponent) (opts : SuiteOptions)
    (testsArg : List TestCase) : SuiteResult :=
  match getComponentName c with
  | Except.error e =>
      { describeCalls := [], insideSuiteCalls := 0, testCalls := []
        error := some (SuiteError.naming e) }
  | Except.ok componentName =>
      let tests := if testsArg.length ≠ 0 then testsArg else [{}]
      let res := registerTests c componentName opts tests
      { describeCalls := [(opts.suiteFn, componentName)]
        insideSuiteCalls := if opts.insideSuite then 1 else 0
        testCalls := res.1
        error := res.2 }

/-- Spec-side description of looking up a key in a merge of `t` under `u`: the
override object's field when it has the key, else the original's field. -/
def mergeGet {α : Type} (t u : Obj α) (k : String) : Option α :=
  match Obj.get u k with
  | some v => some v
  | none => Obj.get t k

/-- Whether a test case's resolved component (its own `Component` field when
present, else the primary component) resolves to exactly the name `n`. -/
def nameMatches (primary : AnyFunctionComponent) (n : String) (tc : TestCase) : Bool :=
  decide (getComponentName (tc.Component.getD primary) = Except.ok n)

/-- Property lookup distributes over list append: the left object wins. -/
theorem Obj.get_append {α : Type} (a b : Obj α) (k : String) :
    Obj.get (a ++ b) k =
      match Obj.get a k with
      | some v => some v
      | none => Obj.get b k := by
  induction a with
  | nil => simp [Obj.get]
  | cons p rest ih =>
      by_cases h : p.1 = k
      · simp [Obj.get, h]
      · simp [Obj.get, h, ih]

/-- Lookup after rewriting every value by its own key's override. -/
theorem Obj.get_map_override {α : Type} (t u : Obj α) (k : String) :
    Obj.get (t.map (fun p => (p.1, ((Obj.get u p.1).getD p.2)))) k =
      (Obj.get t k).map (fun v => (Obj.get u k).getD v) := by
  induction t with
  | nil => simp [Obj.get]
  | cons p rest ih =>
      by_cases h : p.1 = k
      · simp [Obj.get, h]
      · simp [Obj.get, h, ih]

/-- Lookup in a filter whose predicate depends only on the key. -/
theorem Obj.get_filter_key {α : Type} (u : Obj α) (q : String → Bool) (k : String) :
    Obj.get (u.filter (fun p => q p.1)) k =
      if q k then Obj.get u k else none := by
  induction u with
  | nil => simp [Obj.get]
  | cons p rest ih =>
      by_cases hq : q p.1
      · by_cases h : p.1 = k
        · subst h; simp [Obj.get, hq]
        · simp [Obj.get, h, hq, ih]
      · by_cases h : p.1 = k
        · subst h; simp [Obj.get, hq, ih]
        · simp [Obj.get, h, hq, ih]

/-- An object spread realizes the merged lookup: overriding fields win,
non-overridden fields are preserved. -/
theorem spreadObj_get {α : Type} (t u : Obj α) (k : String) :
    Obj.get (spreadObj t u) k = mergeGet t u k := by
  unfold spreadObj mergeGet
  rw [Obj.get_append, Obj.get_map_override,
    Obj.get_filter_key u (fun key => (Obj.get t key).isNone) k]
  cases ht : Obj.get t k <;> cases hu : Obj.get u k <;> simp [ht, hu]

/-- C8: `mapTestList undefined f = undefined` for every `f`;
`mapTestList [] f = []`; and on any list the result has the same length and
order, and each entry's fields are the original entry's fields merged with
the fields `f` returned for it, with `f`'s fields taking precedence on key
collision and every non-overridden original field preserved. -/
theorem mapTestList_merges {α : Type} :
    (∀ f : Obj α → Obj α, mapTestList none f = none) ∧
    (∀ f : Obj α → Obj α, mapTestList (some []) f = some []) ∧
    (∀ (l : List (Obj α)) (f : Obj α → Obj α),
      ∃ l2, mapTestList (some l) f = some l2 ∧ l2.length = l.length ∧
        ∀ (i : Nat) (k : String),
          l2[i]?.map (fun e => Obj.get e k) =
            l[i]?.map (fun t => mergeGet t (f t) k)) := by
  refine ⟨fun f => rfl, fun f => rfl, fun l f => ?_⟩
  refine ⟨l.map (fun t => spreadObj t (f t)), rfl, by simp, fun i k => ?_⟩
  rw [List.getElem?_map]
  cases l[i]? <;> simp [spreadObj_get]

/-- C3: `resolveTestSuiteArgs` normalizes every declared call shape: no
arguments gives empty options and empty tests; a single list argument gives
empty options and that list; a single non-list argument gives that argument
as options and no tests, decided purely by the argument's structural shape
(the quantification is over arbitrary objects, with no field inspected); two
arguments give exactly the pair; a present-but-undefined second argument
normalizes to the empty list (the same state as omitting it, since
destructuring past the array's end yields `undefined`). -/
theorem resolveTestSuiteArgs_normalizes {α β : Type} :
    (resolveTestSuiteArgs (@FirstArg.undef α β) SecondArg.undef =
      { overallOptions := [], tests := [] }) ∧
    (∀ l : List β, resolveTestSuiteArgs (@FirstArg.tests α β l) SecondArg.undef =
      { overallOptions := [], tests := l }) ∧
    (∀ o : Obj α, resolveTestSuiteArgs (@FirstArg.opts α β o) SecondArg.undef =
      { overallOptions := o, tests := [] }) ∧
    (∀ (o : Obj α) (l : List β),
      resolveTestSuiteArgs (FirstArg.opts o) (SecondArg.tests l) =
        { overallOptions := o, tests := l }) :=
  ⟨rfl, fun _ => rfl, fun _ => rfl, fun _ _ => rfl⟩

/-- C10: when the first element of the argument array is `undefined` (the only
falsy value an argument slot can hold here), the result is empty options and
empty tests regardless of the second element; in particular a test list in
the second slot is discarded. -/
theorem resolveTestSuiteArgs_falsy_first {α β : Type} :
    ∀ l : List β, resolveTestSuiteArgs (@FirstArg.undef α β) (SecondArg.tests l) =
      { overallOptions := [], tests := [] } :=
  fun _ => rfl

/-- C6: `getComponentName` resolves in order the structural type-level name,
the display name on the component's type, then the display name on the value
itself, returning the first non-empty one; when all are empty it throws the
naming error, whose message states the component has no name and instructs
the caller to set `displayName`. -/
theorem getComponentName_resolution (c : AnyFunctionComponent) :
    (c.typeName ≠ "" → getComponentName c = Except.ok c.typeName) ∧
    (c.typeName = "" → c.typeDisplayName ≠ "" →
      getComponentName c = Except.ok c.typeDisplayName) ∧
    (c.typeName = "" → c.typeDisplayName = "" → c.displayName ≠ "" →
      getComponentName c = Except.ok c.displayName) ∧
    (c.typeName = "" → c.typeDisplayName = "" → c.displayName = "" →
      getComponentName c = Except.error namingErrorMsg) := by
  refine ⟨?_, ?_, ?_, ?_⟩ <;> intros <;> simp_all [getComponentName, jsOr]

/-- Witness for C6 at concrete components exercising all four branches. -/
theorem getComponentName_resolution_witness :
    getComponentName { typeName := "TestComponent" } = Except.ok "TestComponent" ∧
    getComponentName { typeDisplayName := "MemoName" } = Except.ok "MemoName" ∧
    getComponentName { displayName := "ValueName" } = Except.ok "ValueName" ∧
    getComponentName {} = Except.error namingErrorMsg :=
  ⟨(getComponentName_resolution _).1 (by decide),
   (getComponentName_resolution _).2.1 rfl (by decide),
   (getComponentName_resolution _).2.2.1 rfl rfl (by decide),
   (getComponentName_resolution _).2.2.2 rfl rfl rfl⟩

/-- The registration loop when every case's resolved component resolves to the
suite's name: one registration per case, in order, and no error. -/
theorem registerTests_all_ok (primary : AnyFunctionComponent) (n : String)
    (opts : SuiteOptions) (cases : List TestCase)
    (h : ∀ tc ∈ cases, getComponentName (tc.Component.getD primary) = Except.ok n) :
    registerTests primary n opts cases =
      (cases.map (fun tc => mkTestReg opts (tc.Component.getD primary) tc), none) := by
  induction cases with
  | nil => rfl
  | cons tc rest ih =>
      have h1 := h tc (List.mem_cons_self tc rest)
      have h2 : ∀ x ∈ rest, getComponentName (x.Component.getD primary) = Except.ok n :=
        fun x hx => h x (List.mem_cons_of_mem tc hx)
      simp [registerTests, h1, ih h2]

/-- A take-while prefix has full length exactly when every element satisfies
the predicate. -/
theorem takeWhile_length_eq_iff {α : Type} (p : α → Bool) (l : List α) :
    (l.takeWhile p).length = l.length ↔ ∀ a ∈ l, p a := by
  induction l with
  | nil => simp
  | cons a l ih =>
      by_cases h : p a
      · simp [List.takeWhile_cons, h, ih]
      · simp only [List.takeWhile_cons, h]
        simp only [Bool.false_eq_true, if_false, List.length_nil, List.length_cons]
        constructor
        · intro h0; exact absurd h0 (by omega)
        · intro hall; exact absurd (hall a (List.mem_cons_self a l)) h

/-- The registration loop when every case's resolved component has some
resolvable name: it registers exactly the cases of the longest prefix whose
names match the suite name, and throws the mismatch error exactly when that
prefix is proper. -/
theorem registerTests_takeWhile (primary : AnyFunctionComponent) (n : String)
    (opts : SuiteOptions) (cases : List TestCase)
    (hres : ∀ tc ∈ cases, ∃ m, getComponentName (tc.Component.getD primary) = Except.ok m) :
    registerTests primary n opts cases =
      ((cases.takeWhile (nameMatches primary n)).map
          (fun tc => mkTestReg opts (tc.Component.getD primary) tc),
        if (cases.takeWhile (nameMatches primary n)).length = cases.length then none
        else some (SuiteError.mismatch (mismatchMsg n))) := by
  induction cases with
  | nil => rfl
  | cons tc rest ih =>
      obtain ⟨m, hm⟩ := hres tc (List.mem_cons_self tc rest)
      have hres2 : ∀ x ∈ rest, ∃ k, getComponentName (x.Component.getD primary) = Except.ok k :=
        fun x hx => hres x (List.mem_cons_of_mem tc hx)
      by_cases heq : getComponentName (tc.Component.getD primary) = Except.ok n
      · have hp : nameMatches primary n tc = true := by simp [nameMatches, heq]
        simp only [List.takeWhile_cons, hp, if_true, List.map_cons, List.length_cons]
        have hcond : ((rest.takeWhile (nameMatches primary n)).length + 1 = rest.length + 1) ↔
            ((rest.takeWhile (nameMatches primary n)).length = rest.length) := by omega
        simp only [registerTests, heq, ih hres2, hcond]
        simp
      · have hp : nameMatches primary n tc = false := by simp [nameMatches, heq]
        have hmn : m ≠ n := by
          intro hc; subst hc; exact heq hm
        simp only [List.takeWhile_cons, hp, Bool.false_eq_true, if_false, List.map_nil,
          List.length_nil, List.length_cons]
        have hcond : ¬ (0 = rest.length + 1) := by omega
        simp [registerTests, hm, hmn, hcond]

/-- C1: a call with a nameable primary component in which every test case's
resolved component resolves to the primary's name registers exactly one
describe block, titled with the resolved name, containing
`max 1 (number of cases)` test registrations and throwing no error; with no
cases supplied, the single registered test's title is exactly the base
`testTitle`. -/
theorem componentTestSuite_registers (c : AnyFunctionComponent) (opts : SuiteOptions)
    (cases : List TestCase) (n : String)
    (hname : getComponentName c = Except.ok n)
    (hcases : ∀ tc ∈ cases, getComponentName (tc.Component.getD c) = Except.ok n) :
    (componentTestSuite c opts cases).describeCalls = [(opts.suiteFn, n)] ∧
    (componentTestSuite c opts cases).testCalls.length = max 1 cases.length ∧
    (componentTestSuite c opts cases).error = none ∧
    (cases = [] →
      (componentTestSuite c opts cases).testCalls.map TestReg.title = [opts.testTitle]) := by
  cases cases with
  | nil =>
      have hd : ∀ tc ∈ [({} : TestCase)],
          getComponentName (tc.Component.getD c) = Except.ok n := by
        intro tc htc
        simp only [List.mem_singleton] at htc
        subst htc
        simpa using hname
      simp [componentTestSuite, hname, registerTests_all_ok c n opts [{}] hd,
        mkTestReg, computeTitle, String.append_empty]
  | cons a l =>
      have h2 := registerTests_all_ok c n opts (a :: l) hcases
      have hmax : max 1 (l.length + 1) = l.length + 1 := Nat.max_eq_right (by omega)
      simp [componentTestSuite, hname, h2, hmax]

/-- Witness for C1: a named component and no test cases give one describe
block with one test titled by the base title. -/
theorem componentTestSuite_registers_witness :
    (componentTestSuite { typeName := "TestComponent" }
        { testTitle := "renders the component" } []).describeCalls
      = [(SuiteFnKind.normal, "TestComponent")] ∧
    (componentTestSuite { typeName := "TestComponent" }
        { testTitle := "renders the component" } []).testCalls.length = 1 ∧
    (componentTestSuite { typeName := "TestComponent" }
        { testTitle := "renders the component" } []).testCalls.map TestReg.title
      = ["renders the component"] := by
  have h := componentTestSuite_registers { typeName := "TestComponent" }
      { testTitle := "renders the component" } [] "TestComponent" (by decide) (by simp)
  exact ⟨h.1, h.2.1.trans (by decide), h.2.2.2 rfl⟩

/-- C5: with a non-empty supplied case list (all resolving to the suite name),
the registered titles are, in list order, the base title alone when the
suffix is empty and the base title, a separator, and the suffix otherwise. -/
theorem componentTestSuite_titles_in_order (c : AnyFunctionComponent) (opts : SuiteOptions)
    (cases : List TestCase) (n : String)
    (hname : getComponentName c = Except.ok n)
    (hcases : ∀ tc ∈ cases, getComponentName (tc.Component.getD c) = Except.ok n)
    (hne : cases ≠ []) :
    (componentTestSuite c opts cases).testCalls.map TestReg.title =
      cases.map (fun tc => if tc.testTitleSuffix = "" then opts.testTitle
        else opts.testTitle ++ " - " ++ tc.testTitleSuffix) := by
  have hlen : cases.length ≠ 0 := by
    intro h0; exact hne (List.length_eq_zero.mp h0)
  simp only [componentTestSuite, hname, hlen, ne_eq, not_false_eq_true, if_true,
    registerTests_all_ok c n opts cases hcases, List.map_map]
  refine List.map_congr_left ?_
  intro tc _
  by_cases hs : tc.testTitleSuffix = "" <;>
    simp [mkTestReg, computeTitle, hs, String.append_empty, String.append_assoc]

/-- Witness for C5: suffixes "a" and "b" give titles with the separator, in
order. -/
theorem componentTestSuite_titles_witness :
    (componentTestSuite { typeName := "TestComponent" } { testTitle := "renders" }
        [ { testTitleSuffix := "a" },
          { testTitleSuffix := "b", Component := some { typeName := "TestComponent" } } ]
      ).testCalls.map TestReg.title = ["renders - a", "renders - b"] := by
  have h := componentTestSuite_titles_in_order { typeName := "TestComponent" }
      { testTitle := "renders" }
      [ { testTitleSuffix := "a" },
        { testTitleSuffix := "b", Component := some { typeName := "TestComponent" } } ]
      "TestComponent" (by decide) (by decide) (by simp)
  rw [h]
  decide

/-- C7: when the primary component has no resolvable name, the naming error is
thrown before anything is registered: no describe call and no test call is
made. -/
theorem componentTestSuite_naming_aborts (c : AnyFunctionComponent) (opts : SuiteOptions)
    (cases : List TestCase) (e : String)
    (h : getComponentName c = Except.error e) :
    (componentTestSuite c opts cases).describeCalls = [] ∧
    (componentTestSuite c opts cases).testCalls = [] ∧
    (componentTestSuite c opts cases).error = some (SuiteError.naming e) := by
  simp [componentTestSuite, h]

/-- Witness for C7 at an anonymous component. -/
theorem componentTestSuite_naming_witness :
    (componentTestSuite { props := "anonymous" } { testTitle := "t" } []).describeCalls = [] ∧
    (componentTestSuite { props := "anonymous" } { testTitle := "t" } []).error
      = some (SuiteError.naming namingErrorMsg) :=
  have h := componentTestSuite_naming_aborts { props := "anonymous" } { testTitle := "t" } []
    namingErrorMsg (by decide)
  ⟨h.1, h.2.2⟩

/-- C9: every registered test's render argument is a single wrapper node whose
sole child is that case's resolved component; the wrapper node's type is the
supplied `Wrapper` when present and `React.Fragment` otherwise, and in the
latter case the fragment wraps nothing: unwrapping it yields the resolved
component unchanged. -/
theorem componentTestSuite_wrapping (c : AnyFunctionComponent) (opts : SuiteOptions)
    (cases : List TestCase) (n : String)
    (hname : getComponentName c = Except.ok n)
    (hcases : ∀ tc ∈ cases, getComponentName (tc.Component.getD c) = Except.ok n) :
    ((componentTestSuite c opts cases).testCalls.map TestReg.element =
      (if cases.length ≠ 0 then cases else [{}]).map (fun tc =>
        Element.node (wrapperTypeOf opts) [Element.ofComponent (tc.Component.getD c)])) ∧
    (opts.Wrapper = none →
      (componentTestSuite c opts cases).testCalls.map
          (fun r => Element.fragmentUnwrap r.element) =
        (if cases.length ≠ 0 then cases else [{}]).map
          (fun tc => Element.ofComponent (tc.Component.getD c))) := by
  cases cases with
  | nil =>
      have hd : ∀ tc ∈ [({} : TestCase)],
          getComponentName (tc.Component.getD c) = Except.ok n := by
        intro tc htc
        simp only [List.mem_singleton] at htc
        subst htc
        simpa using hname
      constructor
      · simp [componentTestSuite, hname, registerTests_all_ok c n opts [{}] hd, mkTestReg]
      · intro hw
        simp [componentTestSuite, hname, registerTests_all_ok c n opts [{}] hd, mkTestReg,
          wrapperTypeOf, hw, Element.fragmentUnwrap]
  | cons a l =>
      have h2 := registerTests_all_ok c n opts (a :: l) hcases
      constructor
      · simp [componentTestSuite, hname, h2, mkTestReg]
      · intro hw
        simp [componentTestSuite, hname, h2, mkTestReg, wrapperTypeOf, hw,
          Element.fragmentUnwrap]

/-- Witness for C9: with a supplied wrapper the render argument is that
wrapper with the component as sole child; with no wrapper the fragment
unwraps to the component itself. -/
theorem componentTestSuite_wrapping_witness :
    (componentTestSuite { typeName := "W" } { testTitle := "t", Wrapper := some 7 } []
      ).testCalls.map TestReg.element
      = [Element.node (WrapperType.custom 7) [Element.ofComponent { typeName := "W" }]] ∧
    (componentTestSuite { typeName := "W" } { testTitle := "t" } []
      ).testCalls.map (fun r => Element.fragmentUnwrap r.element)
      = [Element.ofComponent { typeName := "W" }] := by
  have h1 := componentTestSuite_wrapping { typeName := "W" }
      { testTitle := "t", Wrapper := some 7 } [] "W" (by decide) (by simp)
  have h2 := componentTestSuite_wrapping { typeName := "W" }
      { testTitle := "t" } [] "W" (by decide) (by simp)
  constructor
  · have hx := h1.1
    simpa [wrapperTypeOf] using hx
  · have hx := h2.2 rfl
    simpa using hx

/-- C2 (amended): provided every test case's resolved component has a
resolvable name, the suite throws the component-mismatch error, synchronously
at registration time, exactly when some case's resolved name differs from the
suite name; its message names the expected component; tests are registered
only for the cases before the first offending one; and when every case's
resolved name equals the suite name (even for physically distinct component
values) no error is thrown. -/
theorem componentTestSuite_mismatch_characterization
    (c : AnyFunctionComponent) (opts : SuiteOptions) (cases : List TestCase) (n : String)
    (hname : getComponentName c = Except.ok n)
    (hres : ∀ tc ∈ cases, ∃ m, getComponentName (tc.Component.getD c) = Except.ok m) :
    ((∃ msg, (componentTestSuite c opts cases).error = some (SuiteError.mismatch msg)) ↔
      ∃ tc ∈ cases, getComponentName (tc.Component.getD c) ≠ Except.ok n) ∧
    ((cases.takeWhile (nameMatches c n)).length < cases.length →
      (componentTestSuite c opts cases).error
          = some (SuiteError.mismatch (mismatchMsg n)) ∧
        (componentTestSuite c opts cases).testCalls.length
          = (cases.takeWhile (nameMatches c n)).length) ∧
    ((∀ tc ∈ cases, getComponentName (tc.Component.getD c) = Except.ok n) →
      (componentTestSuite c opts cases).error = none) := by
  have hiff : (cases.takeWhile (nameMatches c n)).length = cases.length ↔
      ∀ tc ∈ cases, getComponentName (tc.Component.getD c) = Except.ok n := by
    rw [takeWhile_length_eq_iff]
    constructor
    · intro h tc htc
      have := h tc htc
      simpa [nameMatches] using this
    · intro h tc htc
      simp [nameMatches, h tc htc]
  cases cases with
  | nil =>
      have hd : ∀ tc ∈ [({} : TestCase)],
          getComponentName (tc.Component.getD c) = Except.ok n := by
        intro tc htc
        simp only [List.mem_singleton] at htc
        subst htc
        simpa using hname
      refine ⟨?_, ?_, ?_⟩
      · simp [componentTestSuite, hname, registerTests_all_ok c n opts [{}] hd]
      · intro hlt
        simp at hlt
      · intro _
        simp [componentTestSuite, hname, registerTests_all_ok c n opts [{}] hd]
  | cons a l =>
      have hlen : (a :: l).length ≠ 0 := by simp
      have hreg := registerTests_takeWhile c n opts (a :: l) hres
      have herr : (componentTestSuite c opts (a :: l)).error =
          (if ((a :: l).takeWhile (nameMatches c n)).length = (a :: l).length then none
           else some (SuiteError.mismatch (mismatchMsg n))) := by
        simp [componentTestSuite, hname, hlen, hreg]
      have htc : (componentTestSuite c opts (a :: l)).testCalls.length =
          ((a :: l).takeWhile (nameMatches c n)).length := by
        simp [componentTestSuite, hname, hlen, hreg]
      refine ⟨?_, ?_, ?_⟩
      · constructor
        · rintro ⟨msg, hmsg⟩
          by_contra hcon
          push_neg at hcon
          rw [herr, if_pos (hiff.mpr hcon)] at hmsg
          cases hmsg
        · rintro ⟨tc, htcm, hneq⟩
          have hne2 : ¬ ((a :: l).takeWhile (nameMatches c n)).length = (a :: l).length :=
            fun hl => hneq (hiff.mp hl tc htcm)
          exact ⟨mismatchMsg n, by rw [herr, if_neg hne2]⟩
      · intro hlt
        refine ⟨?_, htc⟩
        rw [herr, if_neg (by omega)]
      · intro hall
        rw [herr, if_pos (hiff.mpr hall)]

/-- Witness for the amended C2: a second case with a differently named
component yields the mismatch error naming the expected component, with only
the earlier case's test registered, while a physically distinct component
with the same name yields no error. -/
theorem componentTestSuite_mismatch_witness :
    (componentTestSuite { typeName := "TestComponent" } { testTitle := "t" }
        [ {}, { testTitleSuffix := "x",
                Component := some { typeName := "DifferentTestComponent" } } ]).error
      = some (SuiteError.mismatch (mismatchMsg "TestComponent")) ∧
    (componentTestSuite { typeName := "TestComponent" } { testTitle := "t" }
        [ {}, { testTitleSuffix := "x",
                Component := some { typeName := "DifferentTestComponent" } } ]
      ).testCalls.length = 1 ∧
    (componentTestSuite { typeName := "TestComponent" } { testTitle := "t" }
        [ {}, { testTitleSuffix := "y",
                Component := some { typeName := "TestComponent", props := "other" } } ]).error
      = none := by
  have hres1 : ∀ tc ∈ [ ({} : TestCase),
      { testTitleSuffix := "x", Component := some { typeName := "DifferentTestComponent" } } ],
      ∃ m, getComponentName (tc.Component.getD { typeName := "TestComponent" })
        = Except.ok m := by
    intro tc htc
    simp only [List.mem_cons, List.mem_singleton, List.not_mem_nil, or_false] at htc
    rcases htc with h | h <;> subst h
    · exact ⟨"TestComponent", by decide⟩
    · exact ⟨"DifferentTestComponent", by decide⟩
  have h1 := componentTestSuite_mismatch_characterization { typeName := "TestComponent" }
      { testTitle := "t" }
      [ {}, { testTitleSuffix := "x",
              Component := some { typeName := "DifferentTestComponent" } } ]
      "TestComponent" (by decide) hres1
  have hres2 : ∀ tc ∈ [ ({} : TestCase),
      { testTitleSuffix := "y", Component := some { typeName := "TestComponent", props := "other" } } ],
      ∃ m, getComponentName (tc.Component.getD { typeName := "TestComponent" })
        = Except.ok m := by
    intro tc htc
    simp only [List.mem_cons, List.mem_singleton, List.not_mem_nil, or_false] at htc
    rcases htc with h | h <;> subst h
    · exact ⟨"TestComponent", by decide⟩
    · exact ⟨"TestComponent", by decide⟩
  have h2 := componentTestSuite_mismatch_characterization { typeName := "TestComponent" }
      { testTitle := "t" }
      [ {}, { testTitleSuffix := "y",
              Component := some { typeName := "TestComponent", props := "other" } } ]
      "TestComponent" (by decide) hres2
  refine ⟨(h1.2.1 (by decide)).1, ((h1.2.1 (by decide)).2).trans (by decide), h2.2.2 (by decide)⟩

/-- Counterexample to C2 as stated: in this call the second test case's
resolved component has the resolved name "Other", different from the primary
component's name "TestComponent", yet no component-mismatch error is thrown:
the first test case's component is anonymous, so the loop's name resolution
throws the naming error first (and no test at all is registered). -/
theorem componentTestSuite_mismatch_counterexample :
    getComponentName ({ typeName := "Other" } : AnyFunctionComponent) = Except.ok "Other" ∧
    "Other" ≠ "TestComponent" ∧
    (componentTestSuite { typeName := "TestComponent" } { testTitle := "renders" }
        [ { Component := some { props := "anonymous" } },
          { testTitleSuffix := "x", Component := some { typeName := "Other" } } ]).error
      = some (SuiteError.naming namingErrorMsg) ∧
    (componentTestSuite { typeName := "TestComponent" } { testTitle := "renders" }
        [ { Component := some { props := "anonymous" } },
          { testTitleSuffix := "x", Component := some { typeName := "Other" } } ]
      ).testCalls.length = 0 := by
  refine ⟨by decide, by decide, rfl, rfl⟩

/-- C4: the registered test callback runs strictly sequentially through
`beforeRender`, the render expectation, then `afterRender`: the call trace is
always an in-order subsequence of before/render/after; a present
`beforeRender` is called; a rejecting `beforeRender` fails the test and the
render function is never invoked; when render throws, the test fails with the
"must not throw" assertion failure and `afterRender` is never invoked;
`afterRender` is invoked exactly when it is present and both earlier steps
succeeded. -/
theorem runTestBody_protocol (b : CaseBehavior) :
    List.Sublist (runTestBody b).1
      [TestEvent.beforeCall, TestEvent.renderCall, TestEvent.afterCall] ∧
    (b.beforeRender.isSome = true → TestEvent.beforeCall ∈ (runTestBody b).1) ∧
    (b.beforeRender = some false →
      (runTestBody b).2 = some TestFailure.beforeRejection ∧
        TestEvent.renderCall ∉ (runTestBody b).1) ∧
    (b.beforeRender ≠ some false → b.renderThrows = true →
      (runTestBody b).2 = some TestFailure.renderAssertionFailure ∧
        TestEvent.afterCall ∉ (runTestBody b).1) ∧
    (TestEvent.afterCall ∈ (runTestBody b).1 →
      b.beforeRender ≠ some false ∧ b.renderThrows = false ∧ b.afterRender.isSome = true) ∧
    (b.afterRender.isSome = true → b.beforeRender ≠ some false → b.renderThrows = false →
      TestEvent.afterCall ∈ (runTestBody b).1) ∧
    (b.beforeRender ≠ some false → TestEvent.renderCall ∈ (runTestBody b).1) := by
  obtain ⟨ob, rt, oa⟩ := b
  rcases ob with _ | (_ | _) <;> rcases oa with _ | (_ | _) <;> cases rt <;>
    exact ⟨by decide, by decide, by decide, by decide, by decide, by decide, by decide⟩

/-- Witness for C4: a rejecting before-hook fails the test without invoking
render; a throwing render fails the test with the assertion failure without
invoking the after-hook. -/
theorem runTestBody_protocol_witness :
    (runTestBody { beforeRender := some false, renderThrows := false, afterRender := some true }).2 = some TestFailure.beforeRejection ∧
    TestEvent.renderCall ∉ (runTestBody { beforeRender := some false, renderThrows := false, afterRender := some true }).1 ∧
    (runTestBody { beforeRender := some true, renderThrows := true, afterRender := some true }).2 = some TestFailure.renderAssertionFailure ∧
    TestEvent.afterCall ∉ (runTestBody { beforeRender := some true, renderThrows := true, afterRender := some true }).1 := by
  have h1 := runTestBody_protocol { beforeRender := some false, renderThrows := false, afterRender := some true }
  have h2 := runTestBody_protocol { beforeRender := some true, renderThrows := true, afterRender := some true }
  exact ⟨(h1.2.2.1 rfl).1, (h1.2.2.1 rfl).2,
    (h2.2.2.2.1 (by decide) rfl).1, (h2.2.2.2.1 (by decide) rfl).2⟩
